import Mathlib

/-!
Verification of the RSS news collector (`scripts/collect_rss.py`).

A shallow embedding of the collector script.  Conventions used throughout:

* Machine time instants (`datetime` values) are modelled as `Int`, an absolute
  timeline in seconds; `timedelta(hours = h)` becomes `h * 3600`.  Python
  compares timezone-aware datetimes by absolute instant, which `Int` order
  models exactly.
* A feedparser time tuple field (`published_parsed` / `updated_parsed`) is
  modelled as `Option (Option Int)`: `none` means the attribute is absent (or
  falsy), `some none` means the attribute is present but
  `datetime(*parsed[:6], tzinfo=utc)` raises `ValueError`/`TypeError`, and
  `some (some t)` means the conversion succeeds and denotes instant `t`.
* `astimezone(JST).strftime("%Y-%m-%d %H:%M")` is modelled as an injective
  rendering of the JST-shifted instant; the "unknown" sentinel string is
  the literal `不明` from the source.
* The thread pool (`ThreadPoolExecutor` + `as_completed`) delivers fetch
  results sequentially in a nondeterministic completion order; the collector
  is therefore modelled as a fold over an arbitrary list of completed
  `(feed, outcome)` pairs, quantifying over every completion order.
* Python's `list.sort(key=...)` is a stable sort; it is modelled by
  Mathlib's stable `List.insertionSort` on the same key order.
* The whitespace class of `re.sub(r"\s+", " ", ...)` is modelled by the
  ASCII whitespace characters.
-/

namespace NewsCollector

/-- Absolute time instants in seconds (model of timezone-aware `datetime`). -/
abbrev Time := Int

/-- One configured feed (`feed_config` dict).  `category` / `language` are
`none` when the corresponding key is missing from the YAML entry, matching
`feed_config.get("category", "other")` / `feed_config.get("language", "en")`. -/
structure FeedSource where
  name : String
  url : String
  category : Option String
  language : Option String
deriving DecidableEq

/-- One raw feed entry as consumed by `collect_articles`.
`link` is `getattr(entry, "link", "")`, so an absent link is the empty string.
`published_parsed` / `updated_parsed` follow the `Option (Option Time)`
convention described in the file header. -/
structure RawEntry where
  link : String
  title : String
  summary : String
  published_parsed : Option (Option Time)
  updated_parsed : Option (Option Time)
deriving DecidableEq

/-- Model of `parse_entry_date` (source lines 41-50): try `published_parsed`, then
`updated_parsed`; a field that is absent, or whose conversion to `datetime`
raises, is skipped; if neither yields a datetime the result is `None`. -/
def parse_entry_date (e : RawEntry) : Option Time :=
  match e.published_parsed with
  | some (some t) => some t
  | _ =>
    match e.updated_parsed with
    | some (some t) => some t
    | _ => none

/-- Whether `needle` is a prefix of `haystack` (char lists). -/
def listStartsB : List Char → List Char → Bool
  | [], _ => true
  | _ :: _, [] => false
  | a :: as, b :: bs => a == b && listStartsB as bs

/-- Whether `needle` occurs as a contiguous substring of the char list (model of
Python's `in` on strings). -/
def listSubB (needle : List Char) : List Char → Bool
  | [] => listStartsB needle []
  | c :: rest => listStartsB needle (c :: rest) || listSubB needle rest

/-- Python `needle in haystack` for strings. -/
def strContainsB (haystack needle : String) : Bool :=
  listSubB needle.data haystack.data

/-- Python `str.lower()`, modelled at the ASCII level (`Char.toLower` maps
`A`-`Z` to `a`-`z` and fixes everything else). -/
def strLower (s : String) : String :=
  String.mk (s.data.map Char.toLower)

/-- Python `s[:n]`: the first `n` characters (code points). -/
def strTake (s : String) (n : Nat) : String :=
  String.mk (s.data.take n)

/-- Model of `matches_keywords` (source lines 53-56): does the lower-cased text
contain at least one lower-cased keyword?  `any` over the empty list is
`False`, so an empty keyword list never matches. -/
def matches_keywords (text : String) (keywords : List String) : Bool :=
  keywords.any fun kw => strContainsB (strLower text) (strLower kw)

/-- Model of `matches_exclude_keywords` (source lines 59-64): an empty exclude list
returns `False` immediately; otherwise the same any-keyword check. -/
def matches_exclude_keywords (text : String) (exclude_keywords : List String) : Bool :=
  if exclude_keywords.isEmpty then false
  else exclude_keywords.any fun kw => strContainsB (strLower text) (strLower kw)

/-- The result of `feedparser.parse(url, agent=...)` as far as the script
reads it: the `bozo` malformed-input flag, the entry list, and the
`bozo_exception` description. -/
structure ParsedFeed where
  bozo : Bool
  entries : List RawEntry
  bozo_exception : String
deriving DecidableEq

/-- The outcome of one feed retrieval: either `feedparser.parse` returned
(`parsed`), or some exception was raised during the fetch (`raised`, carrying
`str(e)`). -/
inductive FetchOutcome where
  | parsed : ParsedFeed → FetchOutcome
  | raised : String → FetchOutcome
deriving DecidableEq

/-- Model of `fetch_single_feed` (source lines 67-83): returns `(name, entries, error)`.
A parse whose `bozo` flag is set and which yielded zero entries becomes a
parse error; a bozo parse that still has entries is used as-is; any raised
exception is converted into an error string. -/
def fetch_single_feed (feed : FeedSource) (outcome : FetchOutcome) :
    String × List RawEntry × Option String :=
  match outcome with
  | .parsed p =>
    if p.bozo && p.entries.isEmpty then
      (feed.name, [], some ("Parse error: " ++ p.bozo_exception))
    else
      (feed.name, p.entries, none)
  | .raised e => (feed.name, [], some e)

/-- ASCII whitespace, modelling the character class of `re.sub(r"\s+", ...)`. -/
def isSpaceCh (c : Char) : Bool :=
  c == ' ' || c == '\t' || c == '\n' || c == '\r' || c == '\x0b' || c == '\x0c'

/-- After a `<`, skip the one-or-more non-`>` characters matched by `[^>]+`
and return the remainder after the closing `>`, scanning to the first `>`. -/
def afterGt : List Char → Option (List Char)
  | [] => none
  | c :: rest => if c == '>' then some rest else afterGt rest

/-- Given the characters following a `<`, return the remainder after a
complete `<[^>]+>` match, or `none` when the regex does not match here
(no closing `>`, or `>` immediately follows the `<`). -/
def tagClose : List Char → Option (List Char)
  | [] => none
  | c :: rest => if c == '>' then none else afterGt rest

/-- Fuelled worker for removing every `<[^>]+>` match (Python `re.sub` scans
left to right; a `<` that starts no match stays literal).  Each step consumes
at least one character, so fuel `= length` suffices. -/
def stripTagsAux : Nat → List Char → List Char
  | 0, s => s
  | _ + 1, [] => []
  | fuel + 1, c :: rest =>
    if c == '<' then
      match tagClose rest with
      | some r => stripTagsAux fuel r
      | none => c :: stripTagsAux fuel rest
    else
      c :: stripTagsAux fuel rest

/-- Replace each maximal whitespace run by a single space (`re.sub(r"\s+", " ")`).
The flag records whether the previous character was part of a run. -/
def collapseWS : Bool → List Char → List Char
  | _, [] => []
  | prevSpace, c :: rest =>
    if isSpaceCh c then
      if prevSpace then collapseWS true rest else ' ' :: collapseWS true rest
    else
      c :: collapseWS false rest

/-- Python `str.strip()` on the already-collapsed text. -/
def trimSpaces (l : List Char) : List Char :=
  ((l.dropWhile isSpaceCh).reverse.dropWhile isSpaceCh).reverse

/-- Model of `clean_text` (source lines 179-183): strip `<[^>]+>` matches, collapse
whitespace runs to single spaces, trim both ends. -/
def clean_text (s : String) : String :=
  String.mk (trimSpaces (collapseWS false (stripTagsAux s.data.length s.data)))

/-- One output article record (source lines 146-160). -/
structure Article where
  title : String
  url : String
  source : String
  category : String
  language : String
  published : String
  summary : String
deriving DecidableEq

/-- Model of `pub_date.astimezone(JST).strftime("%Y-%m-%d %H:%M") if pub_date else "不明"`,
with the formatted JST local time modelled as an injective rendering of the
shifted instant. -/
def format_published : Option Time → String
  | some t => "JST " ++ toString (t + 9 * 3600)
  | none => "不明"

/-- The article dict built on acceptance (source lines 146-160).
`pub_date` is recomputed via `parse_entry_date`, which is pure, so this equals
the value computed once in the loop. -/
def mk_article (feed : FeedSource) (e : RawEntry) : Article where
  title := clean_text e.title
  url := e.link
  source := feed.name
  category := feed.category.getD "other"
  language := feed.language.getD "en"
  published := format_published (parse_entry_date e)
  summary := strTake (clean_text e.summary) 200

/-- Model of `if pub_date and pub_date < cutoff_time` (source line 128): `datetime`
objects are always truthy, so this is "timestamp known and strictly earlier". -/
def recency_drops (pub_date : Option Time) (cutoff_time : Time) : Bool :=
  match pub_date with
  | some t => decide (t < cutoff_time)
  | none => false

/-- The body of the per-entry loop in `collect_articles` (source lines
120-160), acting on the `(articles, seen_urls)` state: skip on missing or
already-seen URL, then on the recency check, then on an exclude-keyword
match, then unless an include keyword matches; otherwise mark the URL seen
and append the article. -/
def step (feed : FeedSource) (cutoff_time : Time)
    (keywords exclude_keywords : List String) :
    List Article × List String → RawEntry → List Article × List String
  | (articles, seen_urls), e =>
    if e.link = "" ∨ e.link ∈ seen_urls then
      (articles, seen_urls)
    else if recency_drops (parse_entry_date e) cutoff_time then
      (articles, seen_urls)
    else if matches_exclude_keywords (e.title ++ " " ++ e.summary) exclude_keywords then
      (articles, seen_urls)
    else if !matches_keywords (e.title ++ " " ++ e.summary) keywords then
      (articles, seen_urls)
    else
      (articles ++ [mk_article feed e], seen_urls ++ [e.link])

/-- The per-entry loop over one successfully fetched feed's entries. -/
def filter_entries (feed : FeedSource) (cutoff_time : Time)
    (keywords exclude_keywords : List String)
    (st : List Article × List String) (entries : List RawEntry) :
    List Article × List String :=
  entries.foldl (step feed cutoff_time keywords exclude_keywords) st

/-- One `{"name": ..., "error": ...}` record (source line 115). -/
structure FetchError where
  name : String
  error : String
deriving DecidableEq

/-- Processing of one completed future (source lines 110-162): an errored
fetch appends a `FetchError`; a successful fetch runs the entry filter
against the shared `(articles, seen_urls)` state. -/
def collect_step (cutoff_time : Time) (keywords exclude_keywords : List String)
    (st : List Article × List String × List FetchError)
    (fr : FeedSource × FetchOutcome) :
    List Article × List String × List FetchError :=
  match fetch_single_feed fr.1 fr.2 with
  | (name, _, some e) =>
    (st.1, st.2.1, st.2.2 ++ [⟨name, e⟩])
  | (_, entries, none) =>
    ((filter_entries fr.1 cutoff_time keywords exclude_keywords (st.1, st.2.1) entries).1,
     (filter_entries fr.1 cutoff_time keywords exclude_keywords (st.1, st.2.1) entries).2,
     st.2.2)

/-- Model of `category_order.get(a["category"], 99)` (source lines 165-174). -/
def category_order (category : String) : Nat :=
  if category = "official" then 0
  else if category = "domestic" then 1
  else if category = "international" then 2
  else if category = "tech" then 3
  else if category = "reddit" then 4
  else if category = "industry" then 5
  else if category = "other" then 6
  else 99

/-- The sort key order on articles used by `articles.sort(key=...)`. -/
def cat_le (a b : Article) : Prop :=
  category_order a.category ≤ category_order b.category

instance : DecidableRel cat_le := fun a b =>
  inferInstanceAs (Decidable (category_order a.category ≤ category_order b.category))

instance : IsTotal Article cat_le :=
  ⟨fun a b => Nat.le_total (category_order a.category) (category_order b.category)⟩

instance : IsTrans Article cat_le :=
  ⟨fun _ _ _ => Nat.le_trans⟩

/-- Model of `articles.sort(key=lambda a: category_order.get(a["category"], 99))`:
Python's `list.sort` is stable, modelled by the stable `List.insertionSort`. -/
def sort_articles (articles : List Article) : List Article :=
  List.insertionSort cat_le articles

/-- The raw fold of `collect_articles` over the completed fetches, before the
final sort: state is `(articles, seen_urls, errors)` starting empty. -/
def collect_raw (completed : List (FeedSource × FetchOutcome))
    (keywords exclude_keywords : List String)
    (cutoff_time : Time) :
    List Article × List String × List FetchError :=
  completed.foldl (collect_step cutoff_time keywords exclude_keywords) ([], [], [])

/-- Model of `collect_articles` (source lines 86-176): `completed` is the list of
`(feed_config, fetch outcome)` pairs in the (nondeterministic) order the
futures complete; `cutoff_time = target_date - timedelta(hours=fetch_hours)`;
the accumulated article list is stably sorted by category priority. -/
def collect_articles (completed : List (FeedSource × FetchOutcome))
    (keywords exclude_keywords : List String)
    (fetch_hours : Int) (target_date : Time) :
    List Article × List FetchError :=
  let cutoff_time := target_date - fetch_hours * 3600
  let res := collect_raw completed keywords exclude_keywords cutoff_time
  (sort_articles res.1, res.2.2)

/-- Model of `category_label` (source lines 186-197): `labels.get(category, category)`. -/
def category_label (category : String) : String :=
  if category = "official" then "🏢 AI企業公式"
  else if category = "domestic" then "📰 国内メディア"
  else if category = "international" then "🌐 海外メディア"
  else if category = "tech" then "💻 技術コミュニティ"
  else if category = "reddit" then "💬 Reddit"
  else if category = "industry" then "🇯🇵 業界特化"
  else if category = "other" then "📋 その他"
  else category

/-- Model of `WEEKDAY_JA` (source line 27). -/
def WEEKDAY_JA : List String := ["月", "火", "水", "木", "金", "土", "日"]

/-- The calendar fields of `target_date` that the renderer reads
(`.year`, `.month`, `.day`, `.weekday()`); the calendar arithmetic itself is
Python's `datetime`, an external collaborator. -/
structure CalendarDate where
  year : Nat
  month : Nat
  day : Nat
  weekday : Nat
deriving DecidableEq

/-- The exact checklist line emitted per article (source line 232). -/
def checklist_line (a : Article) : String :=
  "- [ ] [" ++ a.title ++ " | " ++ a.source ++ "](" ++ a.url ++ ")"

/-- The article-section lines (source lines 225-235): a new `##` header
whenever the category differs from the previous article's, then the checklist
line, then — when the summary is non-empty — the indented summary truncated
to 150 characters, then a blank line. -/
def article_lines : String → List Article → List String
  | _, [] => []
  | current_category, a :: rest =>
    (if a.category ≠ current_category then ["## " ++ category_label a.category, ""] else [])
      ++ ([checklist_line a]
      ++ ((if a.summary ≠ "" then ["      " ++ strTake a.summary 150] else [])
      ++ ([""]
      ++ article_lines a.category rest)))

/-- The error appendix lines (source lines 238-245). -/
def error_lines (errors : List FetchError) : List String :=
  if errors.isEmpty then []
  else
    ["---", "", "## ⚠ 取得エラー", ""]
      ++ errors.map (fun e => "- **" ++ e.name ++ "**: " ++ e.error)
      ++ [""]

/-- All lines of the digest (source lines 206-247).  `now_str` is the
already-formatted `datetime.now(JST)` timestamp (external wall clock). -/
def markdown_lines (articles : List Article) (errors : List FetchError)
    (d : CalendarDate) (now_str : String) : List String :=
  ["# AI News — " ++ (toString d.year ++ "年" ++ toString d.month ++ "月"
      ++ toString d.day ++ "日（" ++ WEEKDAY_JA.getD d.weekday "" ++ "）"),
   "",
   "> 自動収集: " ++ toString articles.length ++ " 件 / エラー: "
      ++ toString errors.length ++ " 件",
   "> 収集時刻: " ++ now_str,
   ""]
    ++ (if articles.isEmpty then ["本日の該当記事はありませんでした。", ""]
        else article_lines "" articles)
    ++ error_lines errors

/-- Model of `generate_markdown` (source lines 200-247): the lines joined by `\n`. -/
def generate_markdown (articles : List Article) (errors : List FetchError)
    (d : CalendarDate) (now_str : String) : String :=
  String.intercalate "\n" (markdown_lines articles errors d now_str)

/-- The spec-side recency predicate: a publish timestamp is known and is
strictly earlier than the cutoff. -/
def recency_drop (e : RawEntry) (cutoff_time : Time) : Prop :=
  ∃ t, parse_entry_date e = some t ∧ t < cutoff_time

/-- Recognizer for the digest's checklist lines: the line starts with the
exact marker `- [ ] ` emitted by the renderer. -/
def is_checklist_line (s : String) : Bool :=
  listStartsB ("- [ ] ".data) s.data

end NewsCollector

namespace NewsCollector

/-- Any step either leaves the state unchanged (the entry was skipped) or
accepts the entry, appending its article and marking its URL seen. -/
theorem step_eq_or (feed : FeedSource) (cutoff : Time) (kw ex : List String)
    (arts : List Article) (seen : List String) (e : RawEntry) :
    step feed cutoff kw ex (arts, seen) e = (arts, seen) ∨
      (e.link ≠ "" ∧ e.link ∉ seen ∧
        step feed cutoff kw ex (arts, seen) e
          = (arts ++ [mk_article feed e], seen ++ [e.link])) := by
  simp only [step]
  split_ifs with h1 h2 h3 h4
  · exact Or.inl rfl
  · exact Or.inl rfl
  · exact Or.inl rfl
  · exact Or.inl rfl
  · push_neg at h1
    exact Or.inr ⟨h1.1, h1.2, rfl⟩

theorem step_empty_keywords (feed : FeedSource) (cutoff : Time) (ex : List String)
    (arts : List Article) (seen : List String) (e : RawEntry) :
    step feed cutoff [] ex (arts, seen) e = (arts, seen) := by
  simp only [step]
  split_ifs with h1 h2 h3 h4
  any_goals rfl
  exact absurd (by simp [matches_keywords]) h4

theorem filter_entries_empty_keywords (feed : FeedSource) (cutoff : Time) (ex : List String)
    (st : List Article × List String) (entries : List RawEntry) :
    filter_entries feed cutoff [] ex st entries = st := by
  induction entries generalizing st with
  | nil => rfl
  | cons e rest ih =>
    obtain ⟨arts, seen⟩ := st
    simp only [filter_entries, List.foldl_cons] at *
    rw [step_empty_keywords, ih]

theorem collect_fold_empty_keywords (cutoff : Time) (ex : List String)
    (completed : List (FeedSource × FetchOutcome))
    (st : List Article × List String × List FetchError) :
    (completed.foldl (collect_step cutoff [] ex) st).1 = st.1 := by
  induction completed generalizing st with
  | nil => rfl
  | cons fr rest ih =>
    rw [List.foldl_cons, ih]
    simp only [collect_step]
    split
    · rfl
    · rw [filter_entries_empty_keywords]

/-- C2: with an empty include-keyword list, no entry is ever included:
the collected article list of any run is empty, for every completion order,
exclude list, fetch window and target date. -/
theorem claim_C2_empty_keywords_nothing_passes
    (completed : List (FeedSource × FetchOutcome)) (exclude_keywords : List String)
    (fetch_hours : Int) (target_date : Time) :
    (collect_articles completed [] exclude_keywords fetch_hours target_date).1 = [] := by
  simp only [collect_articles, collect_raw]
  rw [collect_fold_empty_keywords]
  rfl

theorem recency_drops_iff (e : RawEntry) (cutoff : Time) :
    recency_drops (parse_entry_date e) cutoff = true ↔ recency_drop e cutoff := by
  unfold recency_drops recency_drop
  cases h : parse_entry_date e with
  | none => simp
  | some t => simp

/-- C3: for an entry that passes the URL check, the recency check drops it
iff its parsed timestamp (from `published_parsed`, else `updated_parsed`) is
known and strictly earlier than the cutoff (regardless of the keyword lists),
and — when the keyword checks would pass — the entry is skipped iff that
recency condition holds, so entries with absent or unparsable timestamps are
never dropped by the recency check. -/
theorem claim_C3_recency_drop_iff (feed : FeedSource) (cutoff : Time)
    (kw ex : List String) (arts : List Article) (seen : List String) (e : RawEntry)
    (hlink : e.link ≠ "") (hseen : e.link ∉ seen) :
    (recency_drop e cutoff → step feed cutoff kw ex (arts, seen) e = (arts, seen))
    ∧ (matches_exclude_keywords (e.title ++ " " ++ e.summary) ex = false →
       matches_keywords (e.title ++ " " ++ e.summary) kw = true →
       (step feed cutoff kw ex (arts, seen) e = (arts, seen) ↔ recency_drop e cutoff)) := by
  constructor
  · intro hrec
    simp only [step]
    rw [if_neg (by push_neg; exact ⟨hlink, hseen⟩),
      if_pos ((recency_drops_iff e cutoff).mpr hrec)]
  · intro hex hkw
    constructor
    · intro hstep
      by_contra hrec
      have hdrop : recency_drops (parse_entry_date e) cutoff = false := by
        cases h : recency_drops (parse_entry_date e) cutoff
        · rfl
        · exact absurd ((recency_drops_iff e cutoff).mp h) hrec
      simp only [step] at hstep
      rw [if_neg (by push_neg; exact ⟨hlink, hseen⟩), hdrop, if_neg (by simp),
        hex, if_neg (by simp), hkw, if_neg (by simp)] at hstep
      have := congrArg (fun p => p.2.length) hstep
      simp at this
    · intro hrec
      simp only [step]
      rw [if_neg (by push_neg; exact ⟨hlink, hseen⟩),
        if_pos ((recency_drops_iff e cutoff).mpr hrec)]

/-- Witness for C3 at a concrete input: an entry whose parsed publish time
(-5) predates the cutoff (0) is skipped even though its keywords match. -/
theorem claim_C3_witness :
    step ⟨"f", "u", none, none⟩ 0 ["a"] [] ([], [])
        ⟨"x", "a", "", some (some (-5)), none⟩ = ([], []) :=
  (claim_C3_recency_drop_iff ⟨"f", "u", none, none⟩ 0 ["a"] [] [] []
      ⟨"x", "a", "", some (some (-5)), none⟩ (by decide) (by simp)).1
    ⟨-5, rfl, by decide⟩

/-- C4: an entry whose combined title+summary text matches an exclude keyword
is never accepted — the step leaves the state unchanged no matter what the
include-keyword list says — and an empty exclude-keyword list never excludes
any text. -/
theorem claim_C4_exclude_wins (feed : FeedSource) (cutoff : Time)
    (kw ex : List String) (arts : List Article) (seen : List String) (e : RawEntry) :
    (matches_exclude_keywords (e.title ++ " " ++ e.summary) ex = true →
      step feed cutoff kw ex (arts, seen) e = (arts, seen))
    ∧ ∀ text : String, matches_exclude_keywords text [] = false := by
  constructor
  · intro hex
    simp only [step]
    split_ifs with h1 h2
    · rfl
    · rfl
    · rfl
  · intro text
    rfl

/-- Witness for C4 at a concrete input: the text matches both the include and
the exclude list, and the entry is still dropped. -/
theorem claim_C4_witness :
    step ⟨"f", "u", none, none⟩ 0 ["bad"] ["bad"] ([], [])
        ⟨"x", "bad news", "", none, none⟩ = ([], [])
    ∧ matches_exclude_keywords "anything" [] = false :=
  ⟨(claim_C4_exclude_wins ⟨"f", "u", none, none⟩ 0 ["bad"] ["bad"] [] []
      ⟨"x", "bad news", "", none, none⟩).1 (by decide),
   (claim_C4_exclude_wins ⟨"f", "u", none, none⟩ 0 ["bad"] ["bad"] [] []
      ⟨"x", "bad news", "", none, none⟩).2 "anything"⟩

/-- C9: the seen-URL set gains a URL only when an article is accepted — a
skipped entry changes neither the article list nor the seen set — and on a
concrete run an entry skipped by the keyword check leaves its URL unseen, so
a later entry with the same URL is still accepted. -/
theorem claim_C9_seen_only_on_accept :
    (∀ (feed : FeedSource) (cutoff : Time) (kw ex : List String)
       (arts : List Article) (seen : List String) (e : RawEntry),
       step feed cutoff kw ex (arts, seen) e = (arts, seen) ∨
         (e.link ∉ seen ∧
           step feed cutoff kw ex (arts, seen) e
             = (arts ++ [mk_article feed e], seen ++ [e.link])))
    ∧ (collect_articles
        [(⟨"f", "u", none, none⟩, FetchOutcome.parsed ⟨false,
           [⟨"u", "skip this", "", none, none⟩, ⟨"u", "has x", "", none, none⟩], ""⟩)]
        ["x"] [] 48 0).1
      = [⟨"has x", "u", "f", "other", "en", "不明", ""⟩] := by
  constructor
  · intro feed cutoff kw ex arts seen e
    rcases step_eq_or feed cutoff kw ex arts seen e with h | ⟨_, hm, h⟩
    · exact Or.inl h
    · exact Or.inr ⟨hm, h⟩
  · decide

/-- C10: within the processing of one feed's entries, every newly accepted
article takes category `other` when the feed's configuration has no category
key, and language `en` when it has no language key. -/
theorem claim_C10_feed_defaults (feed : FeedSource) (cutoff : Time)
    (kw ex : List String) (arts : List Article) (seen : List String)
    (entries : List RawEntry) (a : Article)
    (hmem : a ∈ (filter_entries feed cutoff kw ex (arts, seen) entries).1)
    (hnew : a ∉ arts) :
    (feed.category = none → a.category = "other")
    ∧ (feed.language = none → a.language = "en") := by
  induction entries generalizing arts seen with
  | nil => exact absurd hmem hnew
  | cons e rest ih =>
    simp only [filter_entries, List.foldl_cons] at hmem
    rcases step_eq_or feed cutoff kw ex arts seen e with h | ⟨_, _, h⟩
    · rw [h] at hmem
      exact ih arts seen hmem hnew
    · rw [h] at hmem
      by_cases hme : a = mk_article feed e
      · subst hme
        constructor
        · intro hc
          simp [mk_article, hc]
        · intro hl
          simp [mk_article, hl]
      · refine ih (arts ++ [mk_article feed e]) (seen ++ [e.link]) hmem ?_
        simp [hnew, hme]

/-- Witness for C10 at a concrete input: a feed configured without category
and language keys yields an accepted article with category `other` and
language `en`. -/
theorem claim_C10_witness :
    ((⟨"f", "u", none, none⟩ : FeedSource).category = none →
      (mk_article ⟨"f", "u", none, none⟩ ⟨"u", "has x", "", none, none⟩).category = "other")
    ∧ ((⟨"f", "u", none, none⟩ : FeedSource).language = none →
      (mk_article ⟨"f", "u", none, none⟩ ⟨"u", "has x", "", none, none⟩).language = "en") :=
  claim_C10_feed_defaults ⟨"f", "u", none, none⟩ 0 ["x"] [] [] []
    [⟨"u", "has x", "", none, none⟩]
    (mk_article ⟨"f", "u", none, none⟩ ⟨"u", "has x", "", none, none⟩)
    (by decide) (by simp)

theorem step_urls_nodup (feed : FeedSource) (cutoff : Time) (kw ex : List String)
    (arts : List Article) (seen : List String) (e : RawEntry)
    (hnd : (arts.map fun a => a.url).Nodup)
    (hsub : ∀ a ∈ arts, a.url ∈ seen) :
    (((step feed cutoff kw ex (arts, seen) e).1.map fun a => a.url).Nodup
      ∧ ∀ a ∈ (step feed cutoff kw ex (arts, seen) e).1,
          a.url ∈ (step feed cutoff kw ex (arts, seen) e).2) := by
  rcases step_eq_or feed cutoff kw ex arts seen e with h | ⟨_, hns, h⟩
  · rw [h]
    exact ⟨hnd, hsub⟩
  · rw [h]
    have hnotin : e.link ∉ arts.map fun a => a.url := by
      intro hmem
      obtain ⟨a, ha, hurl⟩ := List.mem_map.mp hmem
      exact hns (hurl ▸ hsub a ha)
    constructor
    · rw [List.map_append]
      simp only [List.map_cons, List.map_nil, mk_article]
      exact List.Nodup.append hnd (List.nodup_singleton _)
        (by simpa [List.disjoint_singleton] using hnotin)
    · intro a ha
      rcases List.mem_append.mp ha with ha | ha
      · exact List.mem_append_left _ (hsub a ha)
      · simp only [List.mem_singleton] at ha
        subst ha
        simp [mk_article]

theorem filter_entries_urls_nodup (feed : FeedSource) (cutoff : Time)
    (kw ex : List String) (arts : List Article) (seen : List String)
    (entries : List RawEntry)
    (hnd : (arts.map fun a => a.url).Nodup)
    (hsub : ∀ a ∈ arts, a.url ∈ seen) :
    (((filter_entries feed cutoff kw ex (arts, seen) entries).1.map fun a => a.url).Nodup
      ∧ ∀ a ∈ (filter_entries feed cutoff kw ex (arts, seen) entries).1,
          a.url ∈ (filter_entries feed cutoff kw ex (arts, seen) entries).2) := by
  induction entries generalizing arts seen with
  | nil => exact ⟨hnd, hsub⟩
  | cons e rest ih =>
    obtain ⟨h1, h2⟩ := step_urls_nodup feed cutoff kw ex arts seen e hnd hsub
    cases hst : step feed cutoff kw ex (arts, seen) e with
    | mk arts2 seen2 =>
      rw [hst] at h1 h2
      simp only [filter_entries, List.foldl_cons, hst]
      exact ih arts2 seen2 h1 h2

theorem collect_fold_urls_nodup (cutoff : Time) (kw ex : List String)
    (completed : List (FeedSource × FetchOutcome))
    (arts : List Article) (seen : List String) (errs : List FetchError)
    (hnd : (arts.map fun a => a.url).Nodup)
    (hsub : ∀ a ∈ arts, a.url ∈ seen) :
    (((completed.foldl (collect_step cutoff kw ex) (arts, seen, errs)).1.map
        fun a => a.url).Nodup
      ∧ ∀ a ∈ (completed.foldl (collect_step cutoff kw ex) (arts, seen, errs)).1,
          a.url ∈ (completed.foldl (collect_step cutoff kw ex) (arts, seen, errs)).2.1) := by
  induction completed generalizing arts seen errs with
  | nil => exact ⟨hnd, hsub⟩
  | cons fr rest ih =>
    rw [List.foldl_cons]
    simp only [collect_step]
    split
    · exact ih arts seen _ hnd hsub
    · obtain ⟨h1, h2⟩ := filter_entries_urls_nodup fr.1 cutoff kw ex arts seen _ hnd hsub
      exact ih _ _ _ h1 h2

/-- C1: in the article list returned by any run of the collector, no two
articles share the same `url`: the `url` projections are pairwise distinct,
for every completion order, keyword configuration, fetch window and date. -/
theorem claim_C1_url_unique (completed : List (FeedSource × FetchOutcome))
    (keywords exclude_keywords : List String)
    (fetch_hours : Int) (target_date : Time) :
    ((collect_articles completed keywords exclude_keywords
        fetch_hours target_date).1.map fun a => a.url).Nodup := by
  simp only [collect_articles, collect_raw]
  have hraw := (collect_fold_urls_nodup (target_date - fetch_hours * 3600)
    keywords exclude_keywords completed [] [] [] (by simp) (by simp)).1
  have hperm : List.Perm (sort_articles
      (completed.foldl (collect_step (target_date - fetch_hours * 3600)
        keywords exclude_keywords) ([], [], [])).1)
      (completed.foldl (collect_step (target_date - fetch_hours * 3600)
        keywords exclude_keywords) ([], [], [])).1 :=
    List.perm_insertionSort _ _
  exact ((hperm.map fun a => a.url).nodup_iff).mpr hraw

/-- C5: the final sort is a stable sort by category priority: it permutes the
accumulated list, orders it by the fixed ranks (official 0, domestic 1,
international 2, tech 3, reddit 4, industry 5, other 6, anything else 99),
and articles of equal category keep their pre-sort relative order. -/
theorem claim_C5_stable_category_sort (l : List Article) :
    List.Perm (sort_articles l) l
    ∧ (sort_articles l).Pairwise cat_le
    ∧ (∀ c : String,
        (sort_articles l).filter (fun a => a.category == c)
          = l.filter (fun a => a.category == c))
    ∧ category_order "official" = 0 ∧ category_order "domestic" = 1
    ∧ category_order "international" = 2 ∧ category_order "tech" = 3
    ∧ category_order "reddit" = 4 ∧ category_order "industry" = 5
    ∧ category_order "other" = 6 := by
  refine ⟨List.perm_insertionSort _ _, List.sorted_insertionSort cat_le l, ?_,
    rfl, rfl, rfl, rfl, rfl, rfl, rfl⟩
  intro c
  have hcat : ∀ a ∈ l.filter (fun a => a.category == c), a.category = c := by
    intro a ha
    exact eq_of_beq (List.mem_filter.mp ha).2
  have hpw : (l.filter (fun a => a.category == c)).Pairwise cat_le := by
    apply List.pairwise_of_forall_mem_list
    intro a ha b hb
    unfold cat_le
    rw [hcat a ha, hcat b hb]
  have h1 : List.Sublist (l.filter (fun a => a.category == c))
      (List.insertionSort cat_le l) :=
    List.sublist_insertionSort hpw (List.filter_sublist l)
  have h2 : List.Sublist (l.filter (fun a => a.category == c))
      ((List.insertionSort cat_le l).filter (fun a => a.category == c)) := by
    have h := h1.filter (fun a => a.category == c)
    rwa [List.filter_eq_self.mpr (fun a ha => (List.mem_filter.mp ha).2)] at h
  have h3 : List.Perm ((List.insertionSort cat_le l).filter (fun a => a.category == c))
      (l.filter (fun a => a.category == c)) :=
    (List.perm_insertionSort cat_le l).filter _
  exact (h2.eq_of_length h3.length_eq.symm).symm

/-- C6 counterexample: an unrecognized category does NOT fall back to `other`
for ordering or labeling: `newswire` gets rank 99 while `other` has rank 6
(so a `newswire` article sorts after an `other` article instead of keeping
its position), and its label is the raw string, not `other`'s label. -/
theorem claim_C6_counterexample :
    category_order "newswire" = 99 ∧ category_order "other" = 6
    ∧ category_order "newswire" ≠ category_order "other"
    ∧ category_label "newswire" = "newswire"
    ∧ category_label "newswire" ≠ category_label "other"
    ∧ sort_articles [⟨"t1", "u1", "s", "newswire", "en", "不明", ""⟩,
        ⟨"t2", "u2", "s", "other", "en", "不明", ""⟩]
      = [⟨"t2", "u2", "s", "other", "en", "不明", ""⟩,
         ⟨"t1", "u1", "s", "newswire", "en", "不明", ""⟩] := by
  refine ⟨rfl, rfl, by decide, rfl, by decide, by decide⟩

/-- C6 (amended): a category string outside the fixed table keeps rank 99,
sorting after every recognized category (rather than adopting `other`'s
rank 6), and is labeled by the original string itself. -/
theorem claim_C6_unknown_category (c : String)
    (h : c ∉ ["official", "domestic", "international", "tech", "reddit",
      "industry", "other"]) :
    category_order c = 99 ∧ category_label c = c := by
  simp only [List.mem_cons, List.not_mem_nil, or_false, not_or] at h
  obtain ⟨h1, h2, h3, h4, h5, h6, h7⟩ := h
  constructor
  · simp only [category_order, if_neg h1, if_neg h2, if_neg h3, if_neg h4,
      if_neg h5, if_neg h6, if_neg h7]
  · simp only [category_label, if_neg h1, if_neg h2, if_neg h3, if_neg h4,
      if_neg h5, if_neg h6, if_neg h7]

/-- Witness for the amended C6 at a concrete input. -/
theorem claim_C6_witness : category_order "blog" = 99 ∧ category_label "blog" = "blog" :=
  claim_C6_unknown_category "blog" (by decide)

/-- C7: a fetch returns a parse-error descriptor iff parsing was malformed
(`bozo`) AND yielded zero entries; a malformed feed with entries returns its
entries with no error; an exception is converted to that feed's error string;
and across a whole run the error list is exactly the per-feed fetch errors in
completion order — a failing feed never aborts the processing of the rest. -/
theorem claim_C7_fetch_errors (feed : FeedSource) (p : ParsedFeed) :
    ((fetch_single_feed feed (.parsed p)).2.2.isSome = true
      ↔ (p.bozo = true ∧ p.entries = []))
    ∧ (p.bozo = true → p.entries ≠ [] →
        fetch_single_feed feed (.parsed p) = (feed.name, p.entries, none))
    ∧ (∀ e : String, fetch_single_feed feed (.raised e) = (feed.name, [], some e))
    ∧ (p.bozo = true → p.entries = [] →
        fetch_single_feed feed (.parsed p)
          = (feed.name, [], some ("Parse error: " ++ p.bozo_exception)))
    ∧ ∀ (completed : List (FeedSource × FetchOutcome)) (kw ex : List String)
        (fh : Int) (td : Time),
        (collect_articles completed kw ex fh td).2
          = completed.filterMap (fun fr =>
              match fetch_single_feed fr.1 fr.2 with
              | (name, _, some e) => some ⟨name, e⟩
              | (_, _, none) => none) := by
  refine ⟨?_, ?_, fun e => rfl, ?_, ?_⟩
  · unfold fetch_single_feed
    cases hb : p.bozo <;> cases he : p.entries <;> simp [hb, he]
  · intro hb he
    simp only [fetch_single_feed]
    rw [if_neg]
    simp [hb, List.isEmpty_iff, he]
  · intro hb he
    simp only [fetch_single_feed]
    rw [if_pos]
    simp [hb, List.isEmpty_iff, he]
  · intro completed kw ex fh td
    suffices h : ∀ (cs : List (FeedSource × FetchOutcome))
        (st : List Article × List String × List FetchError),
        (cs.foldl (collect_step (td - fh * 3600) kw ex) st).2.2
          = st.2.2 ++ cs.filterMap (fun fr =>
              match fetch_single_feed fr.1 fr.2 with
              | (name, _, some e) => some ⟨name, e⟩
              | (_, _, none) => none) by
      simpa [collect_articles, collect_raw] using h completed ([], [], [])
    intro cs
    induction cs with
    | nil => simp
    | cons fr rest ih =>
      intro st
      rw [List.foldl_cons, ih]
      simp only [collect_step]
      split
      · rename_i name entries e heq
        simp [List.filterMap_cons, heq]
      · rename_i name entries heq
        simp [List.filterMap_cons, heq]

/-- Witness for C7 at a concrete input: a malformed (`bozo`) parse that still
yielded an entry is returned as-is with no error. -/
theorem claim_C7_witness :
    fetch_single_feed ⟨"f", "u", none, none⟩
        (.parsed ⟨true, [⟨"u", "t", "", none, none⟩], "broken"⟩)
      = ("f", [⟨"u", "t", "", none, none⟩], none) :=
  (claim_C7_fetch_errors ⟨"f", "u", none, none⟩
    ⟨true, [⟨"u", "t", "", none, none⟩], "broken"⟩).2.1 rfl (by simp)

end NewsCollector

namespace NewsCollector

theorem icl_date_header (x : String) :
    is_checklist_line ("# AI News — " ++ x) = false := by
  obtain ⟨xd⟩ := x
  rfl

theorem icl_blank : is_checklist_line "" = false := rfl

theorem icl_counts (a b : String) :
    is_checklist_line ("> 自動収集: " ++ a ++ " 件 / エラー: " ++ b ++ " 件") = false := by
  obtain ⟨ad⟩ := a
  obtain ⟨bd⟩ := b
  rfl

theorem icl_timestamp (x : String) :
    is_checklist_line ("> 収集時刻: " ++ x) = false := by
  obtain ⟨xd⟩ := x
  rfl

theorem icl_no_articles :
    is_checklist_line "本日の該当記事はありませんでした。" = false := rfl

theorem icl_section (x : String) : is_checklist_line ("## " ++ x) = false := by
  obtain ⟨xd⟩ := x
  rfl

theorem icl_summary (x : String) : is_checklist_line ("      " ++ x) = false := by
  obtain ⟨xd⟩ := x
  rfl

theorem icl_divider : is_checklist_line "---" = false := rfl

theorem icl_err_header : is_checklist_line "## ⚠ 取得エラー" = false := rfl

theorem icl_err_bullet (a b : String) :
    is_checklist_line ("- **" ++ a ++ "**: " ++ b) = false := by
  obtain ⟨ad⟩ := a
  obtain ⟨bd⟩ := b
  rfl

theorem icl_checklist (a : Article) : is_checklist_line (checklist_line a) = true := by
  obtain ⟨⟨t⟩, ⟨u⟩, ⟨s⟩, c, lg, p, sm⟩ := a
  rfl

theorem filter_article_lines (cur : String) (arts : List Article) :
    (article_lines cur arts).filter is_checklist_line = arts.map checklist_line := by
  induction arts generalizing cur with
  | nil => rfl
  | cons a rest ih =>
    simp only [article_lines, List.map_cons]
    split_ifs with h1 h2 <;>
      simp [List.filter_append, List.filter_cons, icl_section, icl_blank,
        icl_checklist, icl_summary, ih]

theorem filter_error_bullets (errors : List FetchError) :
    (errors.map (fun e => "- **" ++ e.name ++ "**: " ++ e.error)).filter
      is_checklist_line = [] := by
  induction errors with
  | nil => rfl
  | cons e rest ih => simp [List.filter_cons, icl_err_bullet, ih]

theorem filter_error_lines (errors : List FetchError) :
    (error_lines errors).filter is_checklist_line = [] := by
  unfold error_lines
  split
  · rfl
  · simp [List.filter_append, List.filter_cons, icl_divider, icl_blank,
      icl_err_header, filter_error_bullets]

end NewsCollector

namespace NewsCollector

theorem article_lines_cons (cur : String) (b : Article) (rest : List Article) :
    article_lines cur (b :: rest)
      = article_lines cur [b] ++ article_lines b.category rest := by
  simp only [article_lines, List.append_nil, List.append_assoc, List.singleton_append,
    List.cons_append, List.nil_append]

theorem article_lines_adjacent (arts : List Article) :
    ∀ (cur : String) (a : Article), a ∈ arts →
      ∃ i, (article_lines cur arts)[i]? = some (checklist_line a)
        ∧ (a.summary ≠ "" →
            (article_lines cur arts)[i + 1]? = some ("      " ++ strTake a.summary 150)) := by
  induction arts with
  | nil =>
    intro cur a ha
    cases ha
  | cons b rest ih =>
    intro cur a ha
    rcases List.mem_cons.mp ha with rfl | ha2
    · refine ⟨(if a.category ≠ cur then ["## " ++ category_label a.category, ""]
        else []).length, ?_, fun hns => ?_⟩
      · simp only [article_lines]
        rw [List.getElem?_append_right (Nat.le_refl _)]
        simp
      · simp only [article_lines]
        rw [List.getElem?_append_right (Nat.le_succ_of_le (Nat.le_refl _))]
        have hidx : ∀ n : Nat, n.succ - n = 1 := fun n => by omega
        rw [hidx, if_pos hns]
        simp
    · obtain ⟨i, hi, hs⟩ := ih b.category a ha2
      refine ⟨(article_lines cur [b]).length + i, ?_, fun hns => ?_⟩
      · rw [article_lines_cons, List.getElem?_append_right (Nat.le_add_right _ _),
          Nat.add_sub_cancel_left]
        exact hi
      · rw [article_lines_cons,
          List.getElem?_append_right (by omega : (article_lines cur [b]).length
            ≤ (article_lines cur [b]).length + i + 1),
          (by omega : (article_lines cur [b]).length + i + 1
            - (article_lines cur [b]).length = i + 1)]
        exact hs hns

end NewsCollector

namespace NewsCollector

/-- C8: the checklist lines of the rendered digest are exactly
`- [ ] [title | source](url)` for the articles passed in, in order — so the
`(title, source, url)` triples can be read back off the digest — and within
the article section each article's checklist line is immediately followed by
its indented summary truncated to 150 characters whenever the summary is
non-empty. -/
theorem claim_C8_checklist_roundtrip (articles : List Article) (errors : List FetchError)
    (d : CalendarDate) (now_str : String) :
    (markdown_lines articles errors d now_str).filter is_checklist_line
      = articles.map checklist_line
    ∧ ∀ a ∈ articles,
        ∃ i, (article_lines "" articles)[i]? = some (checklist_line a)
          ∧ (a.summary ≠ "" →
              (article_lines "" articles)[i + 1]?
                = some ("      " ++ strTake a.summary 150)) := by
  constructor
  · unfold markdown_lines
    rw [List.filter_append, filter_error_lines, List.append_nil, List.filter_append]
    simp only [List.filter_cons, List.filter_nil, icl_date_header, icl_blank,
      icl_counts, icl_timestamp, Bool.false_eq_true, if_false, List.nil_append]
    split_ifs with h
    · rw [List.isEmpty_iff.mp h]
      simp [List.filter_cons, icl_no_articles, icl_blank]
    · exact filter_article_lines "" articles
  · intro a ha
    exact article_lines_adjacent articles "" a ha

/-- Witness for C8 at a concrete input: the single article's checklist line
sits at some index with its truncated summary line right after it. -/
theorem claim_C8_witness :
    ∃ i, (article_lines "" [⟨"T", "U", "S", "official", "en", "不明", "Sum"⟩])[i]?
        = some (checklist_line ⟨"T", "U", "S", "official", "en", "不明", "Sum"⟩)
      ∧ ((⟨"T", "U", "S", "official", "en", "不明", "Sum"⟩ : Article).summary ≠ "" →
          (article_lines "" [⟨"T", "U", "S", "official", "en", "不明", "Sum"⟩])[i + 1]?
            = some ("      " ++ strTake (⟨"T", "U", "S", "official", "en", "不明",
                "Sum"⟩ : Article).summary 150)) :=
  (claim_C8_checklist_roundtrip [⟨"T", "U", "S", "official", "en", "不明", "Sum"⟩]
    [] ⟨2026, 2, 17, 1⟩ "now").2 ⟨"T", "U", "S", "official", "en", "不明", "Sum"⟩ (by simp)

end NewsCollector
